import Mathlib

/-!
Verification of the Wavefront metrics-retrieval client
(`pkg/client`: `DefaultWavefrontClient` with `Do`, `ListMetrics`, `Query`).

The Go source is shallowly embedded: the HTTP transport is an oracle
`Transport : Request → TransportResult`, strings are modelled as Lean
strings whose characters play the role of bytes (a hypothesis
`isByteStr s = true` marks the byte-string domain where it matters for
percent-encoding), and every externally observable action of a call
(request sent, body decode attempted, body closed) is recorded in an
event trace.
-/

namespace Wavefront

/-! ### Byte-string helpers -/

/-- A string whose characters all fit in one byte.  Go strings are byte
sequences; the embedding uses Lean characters as bytes, and this predicate
delimits that domain. -/
def isByteStr (s : String) : Bool :=
  s.data.all (fun c => decide (c.toNat < 256))

/-- The sixteen upper-case hexadecimal digit characters. -/
def hexChars : List Char :=
  ("0123456789ABCDEF").data

/-- Upper-case hexadecimal digit for a value below 16 (Go `"0123456789ABCDEF"[n]`). -/
def hexDigitUpper (n : Nat) : Char :=
  hexChars.getD n ('0')

/-- Numeric value of a hexadecimal digit character, upper or lower case
(model of the `unhex` helper of Go `net/url`). -/
def hexVal (c : Char) : Option Nat :=
  let n := c.toNat
  if 48 ≤ n && n ≤ 57 then some (n - 48)
  else if 65 ≤ n && n ≤ 70 then some (n - 55)
  else if 97 ≤ n && n ≤ 102 then some (n - 87)
  else none

/-- The ten decimal digit characters. -/
def decChars : List Char :=
  ("0123456789").data

/-- Decimal digit character for a value below 10. -/
def digitChar (n : Nat) : Char :=
  decChars.getD n ('0')

/-- Decimal digits of a natural number, most significant first; the fuel
argument makes the recursion structural so that the kernel can evaluate it. -/
def natDigitsAux : Nat → Nat → List Char
  | 0, _ => []
  | fuel + 1, n =>
    if n < 10 then [digitChar n]
    else natDigitsAux fuel (n / 10) ++ [digitChar (n % 10)]

/-- Decimal rendering of a natural number. -/
def formatNat (n : Nat) : String :=
  (natDigitsAux (n + 1) n).asString

/-- Model of Go `strconv.FormatInt(i, 10)`: decimal rendering of an integer
with a leading minus sign when negative. -/
def formatInt (i : Int) : String :=
  if i < 0 then ("-") ++ formatNat i.natAbs else formatNat i.natAbs

/-! ### Query escaping (model of Go `net/url` form encoding) -/

/-- Characters Go `url.QueryEscape` leaves unescaped: ASCII alphanumerics
and `-`, `_`, `.`, `~`. -/
def isUnreservedByte (n : Nat) : Bool :=
  (65 ≤ n && n ≤ 90) || (97 ≤ n && n ≤ 122) || (48 ≤ n && n ≤ 57) ||
    n == 45 || n == 95 || n == 46 || n == 126

/-- Model of Go `url.QueryEscape` on a byte sequence: unreserved bytes kept,
space turned into `+`, every other byte percent-encoded. -/
def queryEscapeChars : List Char → List Char
  | [] => []
  | c :: rest =>
    let n := c.toNat
    if isUnreservedByte n then c :: queryEscapeChars rest
    else if n == 32 then '+' :: queryEscapeChars rest
    else '%' :: hexDigitUpper (n / 16) :: hexDigitUpper (n % 16) :: queryEscapeChars rest

/-- Model of Go `url.QueryUnescape` on a byte sequence: `+` becomes space,
`%XY` becomes the byte with hexadecimal value `XY`, anything else is kept;
a malformed percent escape is an error (`none`). -/
def queryUnescapeChars : List Char → Option (List Char)
  | [] => some []
  | c :: rest =>
    if c == '%' then
      match rest with
      | c1 :: c2 :: rest2 =>
        match hexVal c1, hexVal c2 with
        | some h1, some h2 =>
          (queryUnescapeChars rest2).map (fun l => Char.ofNat (h1 * 16 + h2) :: l)
        | _, _ => none
      | _ => none
    else if c == '+' then (queryUnescapeChars rest).map (fun l => ' ' :: l)
    else (queryUnescapeChars rest).map (fun l => c :: l)

/-- Query parameters as an association list, modelling Go `url.Values`
restricted to single-valued keys, which is how the client uses it. -/
abbrev Values := List (String × String)

/-- Model of Go `url.Values.Set`: replace any binding of the key, else add one. -/
def Values.set (vs : Values) (k v : String) : Values :=
  (vs.filter (fun kv => kv.1 != k)) ++ [(k, v)]

/-- One `key=value` pair in encoded form. -/
def encodePairChars (kv : String × String) : List Char :=
  queryEscapeChars kv.1.data ++ '=' :: queryEscapeChars kv.2.data

/-- Encoded pairs joined with `&`. -/
def encodePairsChars : List (String × String) → List Char
  | [] => []
  | [kv] => encodePairChars kv
  | kv :: rest => encodePairChars kv ++ '&' :: encodePairsChars rest

/-- Byte-wise lexicographic order on character lists, as Go compares strings. -/
def charListLt : List Char → List Char → Bool
  | [], [] => false
  | [], _ :: _ => true
  | _ :: _, [] => false
  | a :: as, b :: bs =>
    if a.toNat < b.toNat then true
    else if b.toNat < a.toNat then false
    else charListLt as bs

/-- Byte-wise lexicographic order on strings. -/
def strLt (a b : String) : Bool := charListLt a.data b.data

/-- Insert a pair into a list sorted by key (ascending). -/
def insertPair (p : String × String) : List (String × String) → List (String × String)
  | [] => [p]
  | q :: rest => if strLt q.1 p.1 then q :: insertPair p rest else p :: q :: rest

/-- Sort pairs by key, modelling the key sort Go `url.Values.Encode` performs. -/
def sortPairs : List (String × String) → List (String × String)
  | [] => []
  | p :: rest => insertPair p (sortPairs rest)

/-- Model of Go `url.Values.Encode`: keys sorted, each pair escaped and
joined with `&`. -/
def Values.Encode (vs : Values) : String :=
  (encodePairsChars (sortPairs vs)).asString

/-- Model of one segment of Go `url.ParseQuery`: reject a segment containing
`;` or an empty segment, cut at the first `=`, unescape key and value. -/
def parseSegment (seg : List Char) : Option (String × String) :=
  if ';' ∈ seg then none
  else if seg = [] then none
  else
    let k := seg.takeWhile (fun c => c != '=')
    let v := (seg.dropWhile (fun c => c != '=')).drop 1
    match queryUnescapeChars k, queryUnescapeChars v with
    | some k2, some v2 => some (k2.asString, v2.asString)
    | _, _ => none

/-- Model of Go `url.ParseQuery`: split on `&`, parse each segment, skip
malformed or empty segments (Go records the error and continues). -/
def parseQueryChars (l : List Char) : List (String × String) :=
  if l = [] then []
  else
    (match parseSegment (l.takeWhile (fun c => c != '&')) with
     | some kv => [kv]
     | none => []) ++
      parseQueryChars ((l.dropWhile (fun c => c != '&')).drop 1)
termination_by l.length
decreasing_by
  rename_i h
  have h1 : (l.dropWhile (fun c => c != '&')).length ≤ l.length :=
    (List.dropWhile_sublist (l := l) (fun c => c != '&')).length_le
  have h2 : 0 < l.length := List.length_pos.mpr h
  simp only [List.length_drop]
  omega

/-- Parse a query string into its key-value pairs. -/
def parseQuery (s : String) : List (String × String) :=
  parseQueryChars s.data

/-! ### Path joining (model of Go `path.Join` and `path.Clean`) -/

/-- Segment-stack core of Go `path.Clean`: drop empty and `.` segments,
resolve `..` against the stack (dropped at the root when rooted). -/
def cleanCore (rooted : Bool) : List String → List String → List String
  | acc, [] => acc.reverse
  | acc, s :: rest =>
    if s == "" || s == "." then cleanCore rooted acc rest
    else if s == ".." then
      match acc with
      | [] => cleanCore rooted (if rooted then [] else [s]) rest
      | t :: acc2 =>
        if t == ".." then cleanCore rooted (s :: t :: acc2) rest
        else cleanCore rooted acc2 rest
    else cleanCore rooted (s :: acc) rest

/-- Model of Go `path.Clean` for slash-separated paths. -/
def pathClean (p : String) : String :=
  if p = "" then "." else
  let rooted : Bool := match p.data with | '/' :: _ => true | _ => false
  let segs := ((p.data.splitOn ('/')).map List.asString)
  let out := cleanCore rooted [] segs
  if rooted then ("/") ++ String.intercalate ("/") out
  else if out = [] then "." else String.intercalate ("/") out

/-- Model of Go `path.Join`: drop empty elements, join with `/`, clean. -/
def pathJoin (elems : List String) : String :=
  let ne := elems.filter (fun e => e != "")
  if ne = [] then "" else pathClean (String.intercalate ("/") ne)

/-! ### JSON (model of the subset of `encoding/json` the client exercises) -/

/-- JSON values; numbers keep their source text, so no floating-point
semantics is modelled (none is needed by the client). -/
inductive Json where
  | null : Json
  | bool (b : Bool) : Json
  | num (text : String) : Json
  | str (s : String) : Json
  | arr (elems : List Json) : Json
  | obj (fields : List (String × Json)) : Json

/-- Skip JSON whitespace. -/
def skipWs : List Char → List Char
  | [] => []
  | c :: rest =>
    if c == ' ' || c == '\t' || c == '\n' || c == '\r' then skipWs rest else c :: rest

/-- Parse the remainder of a JSON string literal (after the opening quote),
returning its content and the input after the closing quote.  Handles the
single-character escapes; anything else is an error. -/
def parseJsonStr : Nat → List Char → Option (List Char × List Char)
  | 0, _ => none
  | _ + 1, [] => none
  | fuel + 1, c :: rest =>
    if c == '"' then some ([], rest)
    else if c == '\\' then
      match rest with
      | [] => none
      | e :: rest2 =>
        let ec : Option Char :=
          if e == '"' then some '"'
          else if e == '\\' then some '\\'
          else if e == '/' then some '/'
          else if e == 'n' then some '\n'
          else if e == 't' then some '\t'
          else if e == 'r' then some '\r'
          else none
        match ec with
        | some d => (parseJsonStr fuel rest2).map (fun p => (d :: p.1, p.2))
        | none => none
    else (parseJsonStr fuel rest).map (fun p => (c :: p.1, p.2))

/-- Characters that may occur in a JSON number literal. -/
def isNumChar (c : Char) : Bool :=
  c.isDigit || c == '-' || c == '+' || c == '.' || c == 'e' || c == 'E'

mutual

/-- Parse one JSON value, returning it and the remaining input. -/
def parseJsonValue : Nat → List Char → Option (Json × List Char)
  | 0, _ => none
  | fuel + 1, l =>
    match skipWs l with
    | [] => none
    | c :: rest =>
      if c == '"' then
        (parseJsonStr (fuel + 1) rest).map (fun p => (Json.str p.1.asString, p.2))
      else if c == '\x7b' then parseJsonObjFields fuel rest
      else if c == '[' then parseJsonArrElems fuel rest
      else if c == 't' && rest.take 3 == ['r', 'u', 'e'] then
        some (Json.bool true, rest.drop 3)
      else if c == 'f' && rest.take 4 == ['a', 'l', 's', 'e'] then
        some (Json.bool false, rest.drop 4)
      else if c == 'n' && rest.take 3 == ['u', 'l', 'l'] then
        some (Json.null, rest.drop 3)
      else if c == '-' || c.isDigit then
        some (Json.num (c :: rest.takeWhile isNumChar).asString, rest.dropWhile isNumChar)
      else none

/-- Parse JSON array elements after the opening bracket. -/
def parseJsonArrElems : Nat → List Char → Option (Json × List Char)
  | 0, _ => none
  | fuel + 1, l =>
    match skipWs l with
    | ']' :: rest => some (Json.arr [], rest)
    | l2 =>
      match parseJsonValue fuel l2 with
      | none => none
      | some (v, r) =>
        match skipWs r with
        | ',' :: r2 =>
          match parseJsonArrElems fuel r2 with
          | some (Json.arr vs, r3) => some (Json.arr (v :: vs), r3)
          | _ => none
        | ']' :: r2 => some (Json.arr [v], r2)
        | _ => none

/-- Parse JSON object fields after the opening brace. -/
def parseJsonObjFields : Nat → List Char → Option (Json × List Char)
  | 0, _ => none
  | fuel + 1, l =>
    match skipWs l with
    | '\x7d' :: rest => some (Json.obj [], rest)
    | '"' :: rest =>
      match parseJsonStr (fuel + 1) rest with
      | none => none
      | some (k, r) =>
        match skipWs r with
        | ':' :: r2 =>
          match parseJsonValue fuel r2 with
          | none => none
          | some (v, r3) =>
            match skipWs r3 with
            | ',' :: r4 =>
              match parseJsonObjFields fuel r4 with
              | some (Json.obj fs, r5) => some (Json.obj ((k.asString, v) :: fs), r5)
              | _ => none
            | '\x7d' :: r4 => some (Json.obj [(k.asString, v)], r4)
            | _ => none
        | _ => none
    | _ => none

end

/-- Parse the first JSON value of a body, as Go `json.Decoder.Decode` does;
input after that value is ignored. -/
def parseJson (body : String) : Except String Json :=
  match parseJsonValue (body.length + 1) body.data with
  | some (j, _) => Except.ok j
  | none => Except.error ("invalid JSON document")

/-! ### Result and error types of the client -/

/-- Modelled from the spec: `ListResult` (declared in the repository outside
the given sources) is the decoded response to a metrics-list query, an
ordered sequence of metric-name strings. -/
structure ListResult where
  metrics : List String := []
deriving DecidableEq

/-- Modelled from the spec: one named time series of a query response, an
ordered sequence of (timestamp, value) samples.  Sample numbers keep their
JSON source text, since the spec leaves their exact shape to the remote
service. -/
structure Timeseries where
  label : String := ""
  points : List (String × String) := []
deriving DecidableEq

/-- Modelled from the spec: `QueryResult` (declared in the repository outside
the given sources) is the decoded response to a point/series query: named
time series plus query metadata. -/
structure QueryResult where
  query : String := ""
  timeseries : List Timeseries := []
deriving DecidableEq

/-- The zero value `QueryResult{}` returned by `Query` on every failure. -/
def QueryResult.zero : QueryResult := {}

/-- Modelled from the spec: the `ClientError` taxonomy (the `Error` type with
`ErrBadData` / `ErrBadResponse` tags is declared in the repository outside
the given sources).  `BadRequest` is invalid caller input detected before
any network call, `BadResponse` an undecodable body after a successful
exchange, `TransportErr` a network failure propagated from the HTTP client,
`StatusErr` the non-2xx error built by `Do` carrying status line and code,
and `RequestErr` the error branch of request construction (never reached by
the two domain operations, which always use the GET verb). -/
inductive ClientError where
  | BadRequest (msg : String) : ClientError
  | BadResponse (msg : String) : ClientError
  | TransportErr (msg : String) : ClientError
  | StatusErr (status : String) (code : Int) : ClientError
  | RequestErr (msg : String) : ClientError
deriving DecidableEq

/-- Human-readable message of an error; `StatusErr` renders exactly the Go
format string `"error status=%s code=%d"`. -/
def ClientError.message : ClientError → String
  | .BadRequest m => m
  | .BadResponse m => m
  | .TransportErr m => m
  | .StatusErr s c => ("error status=") ++ s ++ (" code=") ++ formatInt c
  | .RequestErr m => m

/-- Interpret a JSON array as a list of strings (any other element shape is
a decode error, as for a Go `[]string` field). -/
def jsonToStrList : List Json → Option (List String)
  | [] => some []
  | Json.str s :: rest => (jsonToStrList rest).map (fun l => s :: l)
  | _ => none

/-- Model of decoding a body into `ListResult` (Go
`json.NewDecoder(body).Decode(&result)` with a `metrics` field of type
`[]string`): JSON `null` or a missing field leaves the zero value, a
non-object document or a wrongly-typed field is an error. -/
def decodeListResult (body : String) : Except String ListResult :=
  match parseJson body with
  | Except.error e => Except.error e
  | Except.ok Json.null => Except.ok {}
  | Except.ok (Json.obj fields) =>
    match fields.lookup ("metrics") with
    | none => Except.ok {}
    | some Json.null => Except.ok {}
    | some (Json.arr xs) =>
      match jsonToStrList xs with
      | some ms => Except.ok { metrics := ms }
      | none => Except.error ("cannot unmarshal metrics array element as string")
    | some _ => Except.error ("cannot unmarshal metrics field as array")
  | Except.ok _ => Except.error ("cannot unmarshal body as ListResult object")

/-- Interpret a JSON value as one (timestamp, value) sample. -/
def jsonToPoint : Json → Option (String × String)
  | Json.arr [Json.num t, Json.num v] => some (t, v)
  | _ => none

/-- Map a partial function over a list, failing when any element fails. -/
def mapOpt (f : α → Option β) : List α → Option (List β)
  | [] => some []
  | a :: rest =>
    match f a, mapOpt f rest with
    | some b, some bs => some (b :: bs)
    | _, _ => none

/-- Interpret a JSON value as one named time series. -/
def jsonToSeries : Json → Option Timeseries
  | Json.obj fields =>
    let lab :=
      match fields.lookup ("label") with
      | some (Json.str s) => some s
      | none => some ("")
      | some Json.null => some ("")
      | _ => none
    let pts :=
      match fields.lookup ("data") with
      | some (Json.arr xs) => mapOpt jsonToPoint xs
      | none => some []
      | some Json.null => some []
      | _ => none
    match lab, pts with
    | some l, some p => some { label := l, points := p }
    | _, _ => none
  | _ => none

/-- Model of decoding a body into `QueryResult`, with the same discipline as
`decodeListResult`: `null` or missing fields leave zero values, a non-object
document or wrongly-typed field is an error. -/
def decodeQueryResult (body : String) : Except String QueryResult :=
  match parseJson body with
  | Except.error e => Except.error e
  | Except.ok Json.null => Except.ok {}
  | Except.ok (Json.obj fields) =>
    let q :=
      match fields.lookup ("query") with
      | some (Json.str s) => some s
      | none => some ("")
      | some Json.null => some ("")
      | _ => none
    let ts :=
      match fields.lookup ("timeseries") with
      | some (Json.arr xs) => mapOpt jsonToSeries xs
      | none => some []
      | some Json.null => some []
      | _ => none
    match q, ts with
    | some qv, some tv => Except.ok { query := qv, timeseries := tv }
    | _, _ => Except.error ("cannot unmarshal QueryResult field")
  | Except.ok _ => Except.error ("cannot unmarshal body as QueryResult object")

/-! ### HTTP model -/

/-- The parts of `url.URL` the client touches. -/
structure URL where
  scheme : String := ""
  host : String := ""
  path : String := ""
  rawQuery : String := ""
deriving DecidableEq

/-- An outgoing HTTP request as the client builds it: verb, URL and the
headers it sets. -/
structure Request where
  verb : String := ""
  url : URL := {}
  headers : List (String × String) := []
deriving DecidableEq

/-- The parts of `http.Response` the client touches.  The body is the raw
byte string the transport delivered. -/
structure HttpResponse where
  status : String := ""
  statusCode : Int := 0
  body : String := ""
deriving DecidableEq

/-- Outcome of one round trip of the shared `http.Client`: a transport
failure (with a nil response, as documented for Go `http.Client.Do`), or a
response. -/
inductive TransportResult where
  | failed (msg : String) : TransportResult
  | ok (resp : HttpResponse) : TransportResult
deriving DecidableEq

/-- The network as an oracle: what the shared `http.Client` answers to each
request.  The embedding quantifies over it, so theorems hold for every
network behaviour. -/
abbrev Transport := Request → TransportResult

/-- Externally observable actions of one call, in execution order. -/
inductive Event where
  | sent (req : Request) : Event
  | decodeAttempted (body : String) : Event
  | bodyClosed : Event
deriving DecidableEq

/-- The requests a trace handed to the transport. -/
def sentRequests (evs : List Event) : List Request :=
  evs.filterMap (fun e => match e with | Event.sent r => some r | _ => none)

/-- Model of the method check of Go `http.NewRequest`: nonempty and made of
HTTP token characters. -/
def validMethod (verb : String) : Bool :=
  verb != "" && verb.data.all (fun c =>
    33 ≤ c.toNat && c.toNat ≤ 126 &&
      !(("()<>@,;:\\\"/[]?=\x7b\x7d ").data.contains c))

/-! ### The client (embedding of `pkg/client/wavefront_client.go`) -/

def authzHeader : String := "Authorization"
def bearer : String := "Bearer "
def chartEndpoint : String := "/api/v2/chart/api"
def metricsListEndpoint : String := "/chart/metrics/list"
def queryKey : String := "q"
def startTime : String := "s"
def granularity : String := "g"
def outsideSeries : String := "i"

/-- The client configuration: base URL and bearer token, immutable. -/
structure DefaultWavefrontClient where
  baseURL : URL := {}
  token : String := ""
deriving DecidableEq

/-- Constructor `NewWavefrontClient`. -/
def NewWavefrontClient (baseURL : URL) (token : String) : DefaultWavefrontClient :=
  { baseURL := baseURL, token := token }

/-- The request `Do` builds before handing it to the transport: endpoint
path-joined onto the base path, encoded query, and the single
`Authorization: Bearer <token>` header it sets. -/
def DefaultWavefrontClient.request (w : DefaultWavefrontClient)
    (verb endpoint : String) (query : Values) : Request :=
  { verb := verb,
    url := { w.baseURL with
              path := pathJoin [w.baseURL.path, endpoint],
              rawQuery := Values.Encode query },
    headers := [(authzHeader, bearer ++ w.token)] }

/-- Embedding of `DefaultWavefrontClient.Do`: build the URL and request, set
the bearer header, perform the round trip, and classify a non-2xx status as
an error returned together with the raw response.  The second component is
the event trace. -/
def DefaultWavefrontClient.Do (w : DefaultWavefrontClient) (t : Transport)
    (verb endpoint : String) (query : Values) :
    (Option HttpResponse × Option ClientError) × List Event :=
  if validMethod verb then
    let req := w.request verb endpoint query
    match t req with
    | TransportResult.failed m => ((none, some (ClientError.TransportErr m)), [Event.sent req])
    | TransportResult.ok resp =>
      if Int.tdiv resp.statusCode 100 != 2 then
        ((some resp, some (ClientError.StatusErr resp.status resp.statusCode)),
          [Event.sent req])
      else ((some resp, none), [Event.sent req])
  else ((some {}, some (ClientError.RequestErr verb)), [])

/-- Embedding of `DefaultWavefrontClient.ListMetrics`: set the `m` and `l`
parameters, GET the metrics-list endpoint, and decode the body as
`ListResult`; the deferred body close runs on the decode paths only, after
the decode, exactly as in the source. -/
def DefaultWavefrontClient.ListMetrics (w : DefaultWavefrontClient) (t : Transport)
    (pre : String) : (Option (List String) × Option ClientError) × List Event :=
  let vals := Values.set (Values.set [] ("m") pre) ("l") ("150")
  match w.Do t ("GET") metricsListEndpoint vals with
  | ((_, some e), evs) => ((none, some e), evs)
  | ((some resp, none), evs) =>
    (match decodeListResult resp.body with
     | Except.error msg =>
       ((none, some (ClientError.BadResponse msg)),
         evs ++ [Event.decodeAttempted resp.body, Event.bodyClosed])
     | Except.ok result =>
       ((some result.metrics, none),
         evs ++ [Event.decodeAttempted resp.body, Event.bodyClosed]))
  | ((none, none), evs) => ((none, none), evs)

/-- Embedding of `DefaultWavefrontClient.Query`: reject an empty query
expression before any network call, set the `q`, `s`, `g` and `i`
parameters, GET the chart endpoint, and decode the body as `QueryResult`;
body close as in `ListMetrics`. -/
def DefaultWavefrontClient.Query (w : DefaultWavefrontClient) (t : Transport)
    (start : Int) (query : String) : (QueryResult × Option ClientError) × List Event :=
  if query == "" then
    ((QueryResult.zero, some (ClientError.BadRequest ("empty query string"))), [])
  else
    let vals :=
      Values.set (Values.set (Values.set (Values.set [] queryKey query)
        startTime (formatInt start)) granularity ("m")) outsideSeries ("false")
    match w.Do t ("GET") chartEndpoint vals with
    | ((_, some e), evs) => ((QueryResult.zero, some e), evs)
    | ((some resp, none), evs) =>
      (match decodeQueryResult resp.body with
       | Except.error msg =>
         ((QueryResult.zero, some (ClientError.BadResponse msg)),
           evs ++ [Event.decodeAttempted resp.body, Event.bodyClosed])
       | Except.ok result =>
         ((result, none),
           evs ++ [Event.decodeAttempted resp.body, Event.bodyClosed]))
    | ((none, none), evs) => ((QueryResult.zero, none), evs)

/-! ### Concrete instances used by witnesses -/

/-- A concrete client configuration. -/
def w0 : DefaultWavefrontClient :=
  { baseURL := { scheme := ("https"), host := ("try.wavefront.com"), path := ("") },
    token := ("s3cr3t") }

/-- A concrete 500 response. -/
def resp500 : HttpResponse :=
  { status := ("500 Internal Server Error"), statusCode := 500, body := ("boom") }

/-- A transport that always answers with the 500 response. -/
def t500 : Transport := fun _ => TransportResult.ok resp500

/-- A transport that always fails at the network level. -/
def tFail : Transport := fun _ => TransportResult.failed ("connection refused")

/-- The metrics-list body of the worked example in the spec. -/
def listBody : String := "\x7b\"metrics\":[\"cpu.load\",\"cpu.idle\"]\x7d"

/-- A concrete 200 response carrying the worked-example body. -/
def resp200 : HttpResponse :=
  { status := ("200 OK"), statusCode := 200, body := listBody }

/-- A transport that always answers with the 200 response. -/
def t200 : Transport := fun _ => TransportResult.ok resp200

/-! ### Byte-string lemmas -/

theorem isByteStr_iff {s : String} :
    isByteStr s = true ↔ ∀ c ∈ s.data, c.toNat < 256 := by
  simp [isByteStr]

theorem getD_mem_or (l : List Char) (n : Nat) (d : Char) :
    l.getD n d ∈ l ∨ l.getD n d = d := by
  rw [List.getD_eq_getElem?_getD]
  cases h : l[n]? with
  | none => right; simp
  | some c =>
    left
    simpa using List.getElem?_mem h

theorem digitChar_toNat_lt (n : Nat) : (digitChar n).toNat < 256 := by
  rcases getD_mem_or decChars n ('0') with h | h
  · have : ∀ d ∈ decChars, d.toNat < 256 := by decide
    exact this _ h
  · rw [digitChar, h]; decide

theorem natDigitsAux_toNat_lt (fuel n : Nat) :
    ∀ c ∈ natDigitsAux fuel n, c.toNat < 256 := by
  induction fuel generalizing n with
  | zero => intro c hc; simp [natDigitsAux] at hc
  | succ fuel ih =>
    intro c hc
    unfold natDigitsAux at hc
    by_cases h : n < 10
    · simp [h] at hc
      simpa [hc] using digitChar_toNat_lt n
    · simp [h] at hc
      rcases hc with hc | hc
      · exact ih (n / 10) c hc
      · simpa [hc] using digitChar_toNat_lt (n % 10)

theorem isByteStr_formatNat (n : Nat) : isByteStr (formatNat n) = true := by
  rw [isByteStr_iff]
  intro c hc
  have : (formatNat n).data = natDigitsAux (n + 1) n := rfl
  rw [this] at hc
  exact natDigitsAux_toNat_lt _ _ c hc

theorem isByteStr_formatInt (i : Int) : isByteStr (formatInt i) = true := by
  rw [isByteStr_iff]
  intro c hc
  unfold formatInt at hc
  by_cases h : i < 0
  · simp [h] at hc
    rcases hc with hc | hc
    · simp [hc]
    · exact (isByteStr_iff.mp (isByteStr_formatNat i.natAbs)) c hc
  · simp [h] at hc
    exact (isByteStr_iff.mp (isByteStr_formatNat i.natAbs)) c hc

/-! ### Hexadecimal digit lemmas -/

theorem hexDigitUpper_mem (n : Nat) : hexDigitUpper n ∈ hexChars := by
  rcases getD_mem_or hexChars n ('0') with h | h
  · exact h
  · rw [hexDigitUpper, h]; decide

theorem hexChars_not_special :
    ∀ c ∈ hexChars, c ≠ '&' ∧ c ≠ '=' ∧ c ≠ ';' ∧ c ≠ '%' ∧ c ≠ '+' := by
  decide

theorem hexVal_hexDigitUpper {d : Nat} (h : d < 16) :
    hexVal (hexDigitUpper d) = some d := by
  have key : ∀ d : Fin 16, hexVal (hexDigitUpper d.1) = some d.1 := by decide
  exact key ⟨d, h⟩

/-! ### Escaping lemmas -/

theorem queryEscapeChars_not_special (l : List Char) :
    ∀ c ∈ queryEscapeChars l, c ≠ '&' ∧ c ≠ '=' ∧ c ≠ ';' := by
  induction l with
  | nil => intro c hc; simp [queryEscapeChars] at hc
  | cons a rest ih =>
    intro c hc
    unfold queryEscapeChars at hc
    by_cases h1 : isUnreservedByte a.toNat = true
    · simp only [h1, if_true] at hc
      rcases List.mem_cons.mp hc with rfl | hc
      · refine ⟨?_, ?_, ?_⟩ <;> rintro rfl <;> exact absurd h1 (by decide)
      · exact ih c hc
    · by_cases h2 : (a.toNat == 32) = true
      · simp only [h1, h2, if_false, if_true] at hc
        rcases List.mem_cons.mp hc with rfl | hc
        · exact ⟨by decide, by decide, by decide⟩
        · exact ih c hc
      · simp only [h1, h2, if_false] at hc
        rcases List.mem_cons.mp hc with rfl | hc
        · exact ⟨by decide, by decide, by decide⟩
        rcases List.mem_cons.mp hc with rfl | hc
        · have := hexChars_not_special _ (hexDigitUpper_mem (a.toNat / 16))
          exact ⟨this.1, this.2.1, this.2.2.1⟩
        rcases List.mem_cons.mp hc with rfl | hc
        · have := hexChars_not_special _ (hexDigitUpper_mem (a.toNat % 16))
          exact ⟨this.1, this.2.1, this.2.2.1⟩
        · exact ih c hc

theorem queryUnescapeChars_cons (c : Char) (l : List Char) :
    queryUnescapeChars (c :: l) =
      if c == '%' then
        (match l with
         | c1 :: c2 :: rest2 =>
           (match hexVal c1, hexVal c2 with
            | some h1, some h2 =>
              (queryUnescapeChars rest2).map (fun r => Char.ofNat (h1 * 16 + h2) :: r)
            | _, _ => none)
         | _ => none)
      else if c == '+' then (queryUnescapeChars l).map (fun r => ' ' :: r)
      else (queryUnescapeChars l).map (fun r => c :: r) := by
  rw [queryUnescapeChars.eq_def]

theorem queryUnescape_queryEscape (l : List Char) (h : ∀ c ∈ l, c.toNat < 256) :
    queryUnescapeChars (queryEscapeChars l) = some l := by
  induction l with
  | nil => rfl
  | cons a rest ih =>
    have hrest : queryUnescapeChars (queryEscapeChars rest) = some rest :=
      ih (fun c hc => h c (List.mem_cons_of_mem a hc))
    have ha : a.toNat < 256 := h a (List.mem_cons_self a rest)
    by_cases h1 : isUnreservedByte a.toNat = true
    · have hp : (a == '%') = false := by
        apply beq_eq_false_iff_ne.mpr
        rintro rfl; exact absurd h1 (by decide)
      have hpl : (a == '+') = false := by
        apply beq_eq_false_iff_ne.mpr
        rintro rfl; exact absurd h1 (by decide)
      have he : queryEscapeChars (a :: rest) = a :: queryEscapeChars rest := by
        simp [queryEscapeChars, h1]
      have hu : queryUnescapeChars (a :: queryEscapeChars rest)
          = (queryUnescapeChars (queryEscapeChars rest)).map (fun l => a :: l) := by
        rw [queryUnescapeChars_cons, hp, hpl]
        simp
      rw [he, hu, hrest]
      rfl
    · by_cases h2 : (a.toNat == 32) = true
      · have haeq : a = ' ' := by
          have h32 : a.toNat = 32 := eq_of_beq h2
          calc a = Char.ofNat a.toNat := (Char.ofNat_toNat a).symm
            _ = ' ' := by rw [h32]
        have he : queryEscapeChars (a :: rest) = '+' :: queryEscapeChars rest := by
          simp [queryEscapeChars, h1, h2]
        have hu : queryUnescapeChars ('+' :: queryEscapeChars rest)
            = (queryUnescapeChars (queryEscapeChars rest)).map (fun l => ' ' :: l) := by
          rw [queryUnescapeChars_cons]
          simp
        rw [he, hu, hrest, haeq]
        rfl
      · have hd1 : a.toNat / 16 < 16 := by omega
        have hd2 : a.toNat % 16 < 16 := Nat.mod_lt _ (by omega)
        have he : queryEscapeChars (a :: rest)
            = '%' :: hexDigitUpper (a.toNat / 16) :: hexDigitUpper (a.toNat % 16) ::
                queryEscapeChars rest := by
          simp [queryEscapeChars, h1, h2]
        have hu : queryUnescapeChars ('%' :: hexDigitUpper (a.toNat / 16) ::
              hexDigitUpper (a.toNat % 16) :: queryEscapeChars rest)
            = (queryUnescapeChars (queryEscapeChars rest)).map
                (fun l => Char.ofNat (a.toNat / 16 * 16 + a.toNat % 16) :: l) := by
          rw [queryUnescapeChars_cons]
          simp [hexVal_hexDigitUpper hd1, hexVal_hexDigitUpper hd2]
        rw [he, hu, hrest]
        have hmod : a.toNat / 16 * 16 + a.toNat % 16 = a.toNat := by omega
        rw [hmod, Char.ofNat_toNat]
        rfl


/-! ### Splitting lemmas -/

theorem takeWhile_all {p : Char → Bool} :
    ∀ {l : List Char}, (∀ c ∈ l, p c = true) → l.takeWhile p = l := by
  intro l
  induction l with
  | nil => intro _; rfl
  | cons a rest ih =>
    intro h
    rw [List.takeWhile_cons_of_pos (h a (List.mem_cons_self a rest))]
    rw [ih (fun c hc => h c (List.mem_cons_of_mem a hc))]

theorem dropWhile_all {p : Char → Bool} :
    ∀ {l : List Char}, (∀ c ∈ l, p c = true) → l.dropWhile p = [] := by
  intro l
  induction l with
  | nil => intro _; rfl
  | cons a rest ih =>
    intro h
    rw [List.dropWhile_cons_of_pos (h a (List.mem_cons_self a rest))]
    exact ih (fun c hc => h c (List.mem_cons_of_mem a hc))

theorem takeWhile_append_cons {p : Char → Bool} {l1 : List Char} (c0 : Char)
    (l2 : List Char) (h1 : ∀ c ∈ l1, p c = true) (hc : p c0 = false) :
    (l1 ++ c0 :: l2).takeWhile p = l1 := by
  induction l1 with
  | nil =>
    simp only [List.nil_append]
    rw [List.takeWhile_cons_of_neg (by simp [hc])]
  | cons a rest ih =>
    simp only [List.cons_append]
    rw [List.takeWhile_cons_of_pos (h1 a (List.mem_cons_self a rest))]
    rw [ih (fun c hcm => h1 c (List.mem_cons_of_mem a hcm))]

theorem dropWhile_append_cons {p : Char → Bool} {l1 : List Char} (c0 : Char)
    (l2 : List Char) (h1 : ∀ c ∈ l1, p c = true) (hc : p c0 = false) :
    (l1 ++ c0 :: l2).dropWhile p = c0 :: l2 := by
  induction l1 with
  | nil =>
    simp only [List.nil_append]
    rw [List.dropWhile_cons_of_neg (by simp [hc])]
  | cons a rest ih =>
    simp only [List.cons_append]
    rw [List.dropWhile_cons_of_pos (h1 a (List.mem_cons_self a rest))]
    exact ih (fun c hcm => h1 c (List.mem_cons_of_mem a hcm))

/-! ### Encoded pairs parse back to themselves -/

theorem mem_encodePairChars {c : Char} {kv : String × String}
    (h : c ∈ encodePairChars kv) :
    c = '=' ∨ c ∈ queryEscapeChars kv.1.data ∨ c ∈ queryEscapeChars kv.2.data := by
  unfold encodePairChars at h
  rcases List.mem_append.mp h with h | h
  · exact Or.inr (Or.inl h)
  · rcases List.mem_cons.mp h with h | h
    · exact Or.inl h
    · exact Or.inr (Or.inr h)

theorem encodePairChars_no_amp {kv : String × String} :
    ∀ c ∈ encodePairChars kv, (c != '&') = true := by
  intro c hc
  apply bne_iff_ne.mpr
  rcases mem_encodePairChars hc with rfl | h | h
  · decide
  · exact (queryEscapeChars_not_special _ c h).1
  · exact (queryEscapeChars_not_special _ c h).1

theorem encodePairChars_ne_nil (kv : String × String) : encodePairChars kv ≠ [] := by
  unfold encodePairChars
  simp

theorem asString_data (s : String) : s.data.asString = s := rfl

theorem parseSegment_encodePair (k v : String)
    (hk : isByteStr k = true) (hv : isByteStr v = true) :
    parseSegment (encodePairChars (k, v)) = some (k, v) := by
  have hsemi : ¬ (';' ∈ encodePairChars (k, v)) := by
    intro hmem
    rcases mem_encodePairChars hmem with h | h | h
    · exact absurd h (by decide)
    · exact (queryEscapeChars_not_special _ _ h).2.2 rfl
    · exact (queryEscapeChars_not_special _ _ h).2.2 rfl
  have hne : encodePairChars (k, v) ≠ [] := encodePairChars_ne_nil _
  have hkeq : ∀ c ∈ queryEscapeChars k.data, (c != '=') = true := by
    intro c hc
    exact bne_iff_ne.mpr (queryEscapeChars_not_special _ c hc).2.1
  have htake : (encodePairChars (k, v)).takeWhile (fun c => c != '=')
      = queryEscapeChars k.data :=
    takeWhile_append_cons '=' (queryEscapeChars v.data) hkeq (by decide)
  have hdrop : (encodePairChars (k, v)).dropWhile (fun c => c != '=')
      = '=' :: queryEscapeChars v.data :=
    dropWhile_append_cons '=' (queryEscapeChars v.data) hkeq (by decide)
  unfold parseSegment
  rw [if_neg hsemi, if_neg hne]
  simp only [htake, hdrop, List.drop_succ_cons, List.drop_zero]
  rw [queryUnescape_queryEscape k.data (isByteStr_iff.mp hk),
    queryUnescape_queryEscape v.data (isByteStr_iff.mp hv)]
  simp [asString_data]

theorem parseQueryChars_encodePairs :
    ∀ parts : List (String × String),
      (∀ kv ∈ parts, isByteStr kv.1 = true ∧ isByteStr kv.2 = true) →
      parseQueryChars (encodePairsChars parts) = parts := by
  intro parts
  induction parts with
  | nil => intro _; rw [parseQueryChars]; simp [encodePairsChars]
  | cons kv rest ih =>
    intro h
    have hkv := h kv (List.mem_cons_self kv rest)
    have hseg : parseSegment (encodePairChars kv) = some kv := by
      have := parseSegment_encodePair kv.1 kv.2 hkv.1 hkv.2
      simpa using this
    cases rest with
    | nil =>
      have hall : ∀ c ∈ encodePairChars kv, ((fun c => c != '&') c) = true :=
        encodePairChars_no_amp
      rw [show encodePairsChars [kv] = encodePairChars kv from rfl]
      rw [parseQueryChars]
      rw [if_neg (encodePairChars_ne_nil kv)]
      rw [takeWhile_all hall, dropWhile_all hall]
      rw [hseg]
      rw [show (([] : List Char).drop 1) = [] from rfl]
      rw [parseQueryChars]
      simp
    | cons kv2 rest2 =>
      have hrest := ih (fun x hx => h x (List.mem_cons_of_mem kv hx))
      rw [show encodePairsChars (kv :: kv2 :: rest2)
          = encodePairChars kv ++ '&' :: encodePairsChars (kv2 :: rest2) from rfl]
      rw [parseQueryChars]
      rw [if_neg (by simp)]
      rw [takeWhile_append_cons '&' (encodePairsChars (kv2 :: rest2))
        encodePairChars_no_amp (by decide)]
      rw [dropWhile_append_cons '&' (encodePairsChars (kv2 :: rest2))
        encodePairChars_no_amp (by decide)]
      rw [hseg, List.drop_succ_cons, List.drop_zero, hrest]
      rfl

/-! ### Sorting and lookup lemmas -/

theorem insertPair_perm (p : String × String) :
    ∀ l : List (String × String), (insertPair p l).Perm (p :: l) := by
  intro l
  induction l with
  | nil => rfl
  | cons q rest ih =>
    rw [insertPair]
    by_cases hq : strLt q.1 p.1 = true
    · rw [if_pos hq]
      exact List.Perm.trans (ih.cons q) (List.Perm.swap p q rest)
    · rw [if_neg hq]

theorem sortPairs_perm :
    ∀ l : List (String × String), (sortPairs l).Perm l := by
  intro l
  induction l with
  | nil => rfl
  | cons p rest ih =>
    exact List.Perm.trans (insertPair_perm p (sortPairs rest)) (ih.cons p)

theorem lookup_eq_some_of_mem :
    ∀ (l : List (String × String)) (k v : String),
      l.Pairwise (fun a b => a.1 ≠ b.1) → (k, v) ∈ l → l.lookup k = some v := by
  intro l
  induction l with
  | nil => intro k v _ hm; cases hm
  | cons a rest ih =>
    intro k v hd hm
    have hd2 := List.pairwise_cons.mp hd
    rcases List.mem_cons.mp hm with he | hm2
    · rw [← he]
      exact List.lookup_cons_self
    · have hka : (k == a.1) = false := by
        apply beq_eq_false_iff_ne.mpr
        intro he2
        exact (hd2.1 (k, v) hm2) he2.symm
      rw [List.lookup_cons]
      simp only [hka]
      exact ih k v hd2.2 hm2


/-! ### Round trip of `Values.Encode` -/

theorem data_asString (l : List Char) : (l.asString).data = l := rfl

theorem parseQuery_Encode (vs : Values)
    (hb : ∀ kv ∈ vs, isByteStr kv.1 = true ∧ isByteStr kv.2 = true) :
    parseQuery (Values.Encode vs) = sortPairs vs := by
  unfold parseQuery Values.Encode
  rw [data_asString]
  exact parseQueryChars_encodePairs _
    (fun kv hkv => hb kv ((sortPairs_perm vs).mem_iff.mp hkv))

/-! ### Shape lemmas for the client operations -/

theorem validMethod_GET : validMethod ("GET") = true := by decide

theorem Do_trace (w : DefaultWavefrontClient) (t : Transport) (verb ep : String)
    (q : Values) (hv : validMethod verb = true) :
    (w.Do t verb ep q).2 = [Event.sent (w.request verb ep q)] := by
  unfold DefaultWavefrontClient.Do
  simp only [hv, if_true]
  cases ht : t (w.request verb ep q) with
  | failed m => rfl
  | ok resp =>
    by_cases hc : (Int.tdiv resp.statusCode 100 != 2) = true
    · simp only [hc, if_true]
    · simp only [Bool.not_eq_true] at hc
      simp only [hc, Bool.false_eq_true, if_false]

theorem Do_trace_invalid (w : DefaultWavefrontClient) (t : Transport)
    (verb ep : String) (q : Values) (hv : validMethod verb = false) :
    (w.Do t verb ep q).2 = [] := by
  unfold DefaultWavefrontClient.Do
  simp only [hv, Bool.false_eq_true, if_false]


theorem sent_mem_ListMetrics (w : DefaultWavefrontClient) (t : Transport)
    (pre : String) (r : Request)
    (h : Event.sent r ∈ (w.ListMetrics t pre).2) :
    Event.sent r ∈
      (w.Do t ("GET") metricsListEndpoint
        (Values.set (Values.set [] ("m") pre) ("l") ("150"))).2 := by
  unfold DefaultWavefrontClient.ListMetrics at h
  simp only [] at h
  rcases hdo : w.Do t ("GET") metricsListEndpoint
      (Values.set (Values.set [] ("m") pre) ("l") ("150")) with ⟨⟨ro, eo⟩, evs⟩
  rw [hdo] at h
  cases eo with
  | some e => simp only [] at h; exact h
  | none =>
    cases ro with
    | none => simp only [] at h; exact h
    | some resp =>
      simp only [] at h
      rcases hdec : decodeListResult resp.body with e | res <;> rw [hdec] at h <;>
        simp only [List.mem_append, List.mem_cons, List.not_mem_nil, or_false] at h <;>
        rcases h with h | h | h <;> first
          | exact h
          | exact absurd h (by simp)

theorem sent_mem_Query (w : DefaultWavefrontClient) (t : Transport)
    (ts : Int) (qs : String) (r : Request)
    (h : Event.sent r ∈ (w.Query t ts qs).2) :
    Event.sent r ∈
      (w.Do t ("GET") chartEndpoint
        (Values.set (Values.set (Values.set (Values.set [] queryKey qs)
          startTime (formatInt ts)) granularity ("m")) outsideSeries ("false"))).2 := by
  unfold DefaultWavefrontClient.Query at h
  by_cases hq : (qs == "") = true
  · rw [if_pos hq] at h
    exact absurd h (by simp)
  · simp only [Bool.not_eq_true] at hq
    rw [hq] at h
    simp only [Bool.false_eq_true, if_false] at h
    rcases hdo : w.Do t ("GET") chartEndpoint
        (Values.set (Values.set (Values.set (Values.set [] queryKey qs)
          startTime (formatInt ts)) granularity ("m")) outsideSeries ("false"))
      with ⟨⟨ro, eo⟩, evs⟩
    rw [hdo] at h
    cases eo with
    | some e => simp only [] at h; exact h
    | none =>
      cases ro with
      | none => simp only [] at h; exact h
      | some resp =>
        simp only [] at h
        rcases hdec : decodeQueryResult resp.body with e | res <;> rw [hdec] at h <;>
          simp only [List.mem_append, List.mem_cons, List.not_mem_nil, or_false] at h <;>
          rcases h with h | h | h <;> first
            | exact h
            | exact absurd h (by simp)

theorem sent_headers_Do (w : DefaultWavefrontClient) (t : Transport)
    (verb ep : String) (q : Values) (r : Request)
    (h : Event.sent r ∈ (w.Do t verb ep q).2) :
    r.headers = [(authzHeader, bearer ++ w.token)] := by
  by_cases hv : validMethod verb = true
  · rw [Do_trace w t verb ep q hv] at h
    simp only [List.mem_cons, List.not_mem_nil, or_false, Event.sent.injEq] at h
    rw [h]
    rfl
  · rw [Do_trace_invalid w t verb ep q (by simpa using hv)] at h
    exact absurd h (by simp)

/-! ### Claims -/

/-- C1: for every timestamp, `Query` with the empty query expression returns
the `BadRequest` error "empty query string" and performs no network call: the
whole call returns the zero result, that error, and an empty trace, so
`TransportClient.Do` is never invoked. -/
theorem C1_empty_query_bad_request (w : DefaultWavefrontClient) (t : Transport)
    (ts : Int) :
    w.Query t ts ("") =
      ((QueryResult.zero, some (ClientError.BadRequest ("empty query string"))), []) := rfl

/-- C2: every request issued by `Do`, and hence by `ListMetrics` and `Query`,
carries exactly the header `Authorization: Bearer <token>` with the token the
client was constructed with. -/
theorem C2_bearer_header (w : DefaultWavefrontClient) (t : Transport)
    (verb ep : String) (q : Values) ( pre qs : String) (ts : Int) (r : Request)
    (h : Event.sent r ∈ (w.Do t verb ep q).2 ∨
         Event.sent r ∈ (w.ListMetrics t pre).2 ∨
         Event.sent r ∈ (w.Query t ts qs).2) :
    r.headers = [(authzHeader, bearer ++ w.token)] := by
  rcases h with h | h | h
  · exact sent_headers_Do w t verb ep q r h
  · exact sent_headers_Do w t ("GET") metricsListEndpoint _ r
      (sent_mem_ListMetrics w t pre r h)
  · exact sent_headers_Do w t ("GET") chartEndpoint _ r
      (sent_mem_Query w t ts qs r h)

/-- Witness for C2 at a concrete client, transport, and request. -/
theorem C2_bearer_header_witness :
    (Event.sent (w0.request ("GET") metricsListEndpoint
        (Values.set (Values.set [] ("m") ("cpu.")) ("l") ("150")))
      ∈ (w0.ListMetrics tFail ("cpu.")).2) ∧
    (w0.request ("GET") metricsListEndpoint
        (Values.set (Values.set [] ("m") ("cpu.")) ("l") ("150"))).headers
      = [(authzHeader, bearer ++ w0.token)] := by
  have hmem : Event.sent (w0.request ("GET") metricsListEndpoint
      (Values.set (Values.set [] ("m") ("cpu.")) ("l") ("150")))
      ∈ (w0.ListMetrics tFail ("cpu.")).2 := by
    rw [show (w0.ListMetrics tFail ("cpu.")).2
        = [Event.sent (w0.request ("GET") metricsListEndpoint
            (Values.set (Values.set [] ("m") ("cpu.")) ("l") ("150")))] from rfl]
    exact List.mem_singleton_self _
  exact ⟨hmem,
    C2_bearer_header w0 tFail ("GET") metricsListEndpoint [] ("cpu.") ("x") 0 _
      (Or.inr (Or.inl hmem))⟩


/-! ### Non-2xx behaviour -/

theorem Do_status_err (w : DefaultWavefrontClient) (t : Transport)
    (verb ep : String) (q : Values) (resp : HttpResponse)
    (h1 : ∀ r, t r = TransportResult.ok resp)
    (h2 : Int.tdiv resp.statusCode 100 ≠ 2) (hv : validMethod verb = true) :
    w.Do t verb ep q
      = ((some resp, some (ClientError.StatusErr resp.status resp.statusCode)),
          [Event.sent (w.request verb ep q)]) := by
  unfold DefaultWavefrontClient.Do
  simp only [hv, if_true]
  rw [h1]
  have hc : (Int.tdiv resp.statusCode 100 != 2) = true := bne_iff_ne.mpr h2
  simp only [hc, if_true]

theorem ListMetrics_status_err (w : DefaultWavefrontClient) (t : Transport)
    ( pre : String) (resp : HttpResponse)
    (h1 : ∀ r, t r = TransportResult.ok resp)
    (h2 : Int.tdiv resp.statusCode 100 ≠ 2) :
    w.ListMetrics t pre
      = ((none, some (ClientError.StatusErr resp.status resp.statusCode)),
          [Event.sent (w.request ("GET") metricsListEndpoint
            (Values.set (Values.set [] ("m") pre) ("l") ("150")))]) := by
  unfold DefaultWavefrontClient.ListMetrics
  simp only []
  rw [Do_status_err w t ("GET") metricsListEndpoint _ resp h1 h2 validMethod_GET]

theorem Query_status_err (w : DefaultWavefrontClient) (t : Transport)
    (ts : Int) (qs : String) (resp : HttpResponse)
    (h1 : ∀ r, t r = TransportResult.ok resp)
    (h2 : Int.tdiv resp.statusCode 100 ≠ 2) (hq : qs ≠ "") :
    w.Query t ts qs
      = ((QueryResult.zero, some (ClientError.StatusErr resp.status resp.statusCode)),
          [Event.sent (w.request ("GET") chartEndpoint
            (Values.set (Values.set (Values.set (Values.set [] queryKey qs)
              startTime (formatInt ts)) granularity ("m")) outsideSeries ("false")))]) := by
  unfold DefaultWavefrontClient.Query
  have hqb : (qs == "") = false := beq_eq_false_iff_ne.mpr hq
  simp only [hqb, Bool.false_eq_true, if_false]
  rw [Do_status_err w t ("GET") chartEndpoint _ resp h1 h2 validMethod_GET]

/-- C3: on every response with a non-2xx status class, `Do` returns the raw
response together with an error embedding the status line and status code
(rendered with the Go format string "error status=%s code=%d"), and
`ListMetrics` and `Query` propagate exactly that error without ever
attempting to JSON-decode the body: no decode event occurs in their traces. -/
theorem C3_non2xx_status_error (w : DefaultWavefrontClient) (t : Transport)
    (resp : HttpResponse) (verb ep : String) (q : Values)
    ( pre qs : String) (ts : Int)
    (h1 : ∀ r, t r = TransportResult.ok resp)
    (h2 : Int.tdiv resp.statusCode 100 ≠ 2)
    (hv : validMethod verb = true) (hq : qs ≠ "") :
    (w.Do t verb ep q).1
        = (some resp, some (ClientError.StatusErr resp.status resp.statusCode)) ∧
    (w.ListMetrics t pre).1
        = (none, some (ClientError.StatusErr resp.status resp.statusCode)) ∧
    (w.Query t ts qs).1
        = (QueryResult.zero, some (ClientError.StatusErr resp.status resp.statusCode)) ∧
    (∀ b, Event.decodeAttempted b ∉ (w.ListMetrics t pre).2) ∧
    (∀ b, Event.decodeAttempted b ∉ (w.Query t ts qs).2) ∧
    (ClientError.StatusErr resp.status resp.statusCode).message
        = ("error status=") ++ resp.status ++ (" code=") ++ formatInt resp.statusCode := by
  refine ⟨?_, ?_, ?_, ?_, ?_, rfl⟩
  · rw [Do_status_err w t verb ep q resp h1 h2 hv]
  · rw [ListMetrics_status_err w t pre resp h1 h2]
  · rw [Query_status_err w t ts qs resp h1 h2 hq]
  · intro b
    rw [ListMetrics_status_err w t pre resp h1 h2]
    simp
  · intro b
    rw [Query_status_err w t ts qs resp h1 h2 hq]
    simp

/-- Witness for C3 at a concrete client and an always-500 transport. -/
theorem C3_non2xx_status_error_witness :
    (∀ r, t500 r = TransportResult.ok resp500) ∧
    Int.tdiv resp500.statusCode 100 ≠ 2 ∧
    validMethod ("GET") = true ∧
    ("ts(my.metric)" : String) ≠ ("") ∧
    (w0.ListMetrics t500 ("cpu.")).1
      = (none, some (ClientError.StatusErr resp500.status resp500.statusCode)) :=
  ⟨fun _ => rfl, by decide, by decide, by decide,
   (C3_non2xx_status_error w0 t500 resp500 ("GET") metricsListEndpoint []
     ("cpu.") ("ts(my.metric)") 0 (fun _ => rfl) (by decide) (by decide)
     (by decide)).2.1⟩


/-! ### Case analysis of the two operations over an arbitrary transport -/

theorem Do_error_classified (w : DefaultWavefrontClient) (t : Transport)
    (ep : String) (q : Values) (e : ClientError) (ro : Option HttpResponse)
    (evs : List Event)
    (hdo : w.Do t ("GET") ep q = ((ro, some e), evs)) :
    (∃ m, e = ClientError.TransportErr m) ∨
    (∃ st c, e = ClientError.StatusErr st c) := by
  unfold DefaultWavefrontClient.Do at hdo
  simp only [validMethod_GET, if_true] at hdo
  cases ht : t (w.request ("GET") ep q) with
  | failed m =>
    rw [ht] at hdo
    simp only [Prod.mk.injEq, Option.some.injEq] at hdo
    exact Or.inl ⟨m, hdo.1.2.symm⟩
  | ok resp =>
    rw [ht] at hdo
    by_cases hc : (Int.tdiv resp.statusCode 100 != 2) = true
    · simp only [hc, if_true, Prod.mk.injEq, Option.some.injEq] at hdo
      exact Or.inr ⟨resp.status, resp.statusCode, hdo.1.2.symm⟩
    · simp only [Bool.not_eq_true] at hc
      simp only [hc, Bool.false_eq_true, if_false, Prod.mk.injEq] at hdo
      exact absurd hdo.1.2 (by simp)

theorem ListMetrics_cases (w : DefaultWavefrontClient) (t : Transport)
    ( pre : String) :
    (∃ e evs, w.ListMetrics t pre = ((none, some e), evs) ∧
       ((∃ m, e = ClientError.BadResponse m) ∨ (∃ m, e = ClientError.TransportErr m) ∨
        (∃ st c, e = ClientError.StatusErr st c))) ∨
    (∃ ms evs, w.ListMetrics t pre = ((some ms, none), evs)) ∨
    (∃ evs, w.ListMetrics t pre = ((none, none), evs)) := by
  unfold DefaultWavefrontClient.ListMetrics
  simp only []
  rcases hdo : w.Do t ("GET") metricsListEndpoint
      (Values.set (Values.set [] ("m") pre) ("l") ("150")) with ⟨⟨ro, eo⟩, evs⟩
  cases eo with
  | some e =>
    simp only []
    refine Or.inl ⟨e, evs, rfl, ?_⟩
    rcases Do_error_classified w t metricsListEndpoint _ e ro evs hdo with h | h
    · exact Or.inr (Or.inl h)
    · exact Or.inr (Or.inr h)
  | none =>
    cases ro with
    | none => simp only []; exact Or.inr (Or.inr ⟨evs, rfl⟩)
    | some resp =>
      simp only []
      rcases hdec : decodeListResult resp.body with msg | res <;> simp only []
      · exact Or.inl ⟨ClientError.BadResponse msg,
          evs ++ [Event.decodeAttempted resp.body, Event.bodyClosed], rfl,
          Or.inl ⟨msg, rfl⟩⟩
      · exact Or.inr (Or.inl ⟨res.metrics,
          evs ++ [Event.decodeAttempted resp.body, Event.bodyClosed], rfl⟩)

theorem Query_cases (w : DefaultWavefrontClient) (t : Transport)
    (ts : Int) (qs : String) :
    (∃ e evs, w.Query t ts qs = ((QueryResult.zero, some e), evs) ∧
       ((∃ m, e = ClientError.BadRequest m) ∨ (∃ m, e = ClientError.BadResponse m) ∨
        (∃ m, e = ClientError.TransportErr m) ∨
        (∃ st c, e = ClientError.StatusErr st c))) ∨
    (∃ res evs, w.Query t ts qs = ((res, none), evs)) := by
  unfold DefaultWavefrontClient.Query
  by_cases hq : (qs == "") = true
  · rw [if_pos hq]
    exact Or.inl ⟨ClientError.BadRequest ("empty query string"), [], rfl,
      Or.inl ⟨("empty query string"), rfl⟩⟩
  · simp only [Bool.not_eq_true] at hq
    simp only [hq, Bool.false_eq_true, if_false]
    rcases hdo : w.Do t ("GET") chartEndpoint
        (Values.set (Values.set (Values.set (Values.set [] queryKey qs)
          startTime (formatInt ts)) granularity ("m")) outsideSeries ("false"))
      with ⟨⟨ro, eo⟩, evs⟩
    cases eo with
    | some e =>
      simp only []
      refine Or.inl ⟨e, evs, rfl, ?_⟩
      rcases Do_error_classified w t chartEndpoint _ e ro evs hdo with h | h
      · exact Or.inr (Or.inr (Or.inl h))
      · exact Or.inr (Or.inr (Or.inr h))
    | none =>
      cases ro with
      | none => simp only []; exact Or.inr ⟨QueryResult.zero, evs, rfl⟩
      | some resp =>
        simp only []
        rcases hdec : decodeQueryResult resp.body with msg | res <;> simp only []
        · exact Or.inl ⟨ClientError.BadResponse msg,
            evs ++ [Event.decodeAttempted resp.body, Event.bodyClosed], rfl,
            Or.inr (Or.inl ⟨msg, rfl⟩)⟩
        · exact Or.inr ⟨res,
            evs ++ [Event.decodeAttempted resp.body, Event.bodyClosed], rfl⟩

/-- C4: every failure returned by `ListMetrics` or `Query` is classified:
it is a `BadRequest`, a `BadResponse`, a propagated transport error, or a
status error carrying the status line and code; no call returns any other
error value. -/
theorem C4_errors_classified (w : DefaultWavefrontClient) (t : Transport)
    ( pre qs : String) (ts : Int) (e : ClientError)
    (h : (w.ListMetrics t pre).1.2 = some e ∨ (w.Query t ts qs).1.2 = some e) :
    (∃ m, e = ClientError.BadRequest m) ∨ (∃ m, e = ClientError.BadResponse m) ∨
    (∃ m, e = ClientError.TransportErr m) ∨
    (∃ st c, e = ClientError.StatusErr st c) := by
  rcases h with h | h
  · rcases ListMetrics_cases w t pre with ⟨e2, evs, heq, hcls⟩ | ⟨ms, evs, heq⟩ | ⟨evs, heq⟩
    · rw [heq] at h
      simp only [Option.some.injEq] at h
      rw [← h]
      exact Or.inr hcls
    · rw [heq] at h
      exact absurd h (by simp)
    · rw [heq] at h
      exact absurd h (by simp)
  · rcases Query_cases w t ts qs with ⟨e2, evs, heq, hcls⟩ | ⟨res, evs, heq⟩
    · rw [heq] at h
      simp only [Option.some.injEq] at h
      rw [← h]
      exact hcls
    · rw [heq] at h
      exact absurd h (by simp)

/-- Witness for C4 at a failing concrete transport. -/
theorem C4_errors_classified_witness :
    ((w0.ListMetrics tFail ("x")).1.2
        = some (ClientError.TransportErr ("connection refused"))) ∧
    ((∃ m, ClientError.TransportErr ("connection refused") = ClientError.BadRequest m) ∨
     (∃ m, ClientError.TransportErr ("connection refused") = ClientError.BadResponse m) ∨
     (∃ m, ClientError.TransportErr ("connection refused") = ClientError.TransportErr m) ∨
     (∃ st c, ClientError.TransportErr ("connection refused")
        = ClientError.StatusErr st c)) :=
  ⟨rfl, C4_errors_classified w0 tFail ("x") ("ts(x)") 0
    (ClientError.TransportErr ("connection refused")) (Or.inl rfl)⟩

/-- C10: on every error return the typed result is empty: `ListMetrics`
returns the nil sequence and `Query` returns the zero-value `QueryResult`;
no call pairs a non-empty result with an error. -/
theorem C10_zero_results_on_error (w : DefaultWavefrontClient) (t : Transport)
    ( pre qs : String) (ts : Int) :
    ((w.ListMetrics t pre).1.2.isSome = true → (w.ListMetrics t pre).1.1 = none) ∧
    ((w.Query t ts qs).1.2.isSome = true → (w.Query t ts qs).1.1 = QueryResult.zero) := by
  constructor
  · intro h
    rcases ListMetrics_cases w t pre with ⟨e2, evs, heq, _⟩ | ⟨ms, evs, heq⟩ | ⟨evs, heq⟩
    · rw [heq]
    · rw [heq] at h
      exact absurd h (by simp)
    · rw [heq]
  · intro h
    rcases Query_cases w t ts qs with ⟨e2, evs, heq, _⟩ | ⟨res, evs, heq⟩
    · rw [heq]
    · rw [heq] at h
      exact absurd h (by simp)

/-- Witness for C10 at a failing concrete transport. -/
theorem C10_zero_results_on_error_witness :
    (w0.ListMetrics tFail ("x")).1.1 = none ∧
    (w0.Query tFail 3 ("ts(x)")).1.1 = QueryResult.zero :=
  ⟨(C10_zero_results_on_error w0 tFail ("x") ("ts(x)") 3).1 (by rfl),
   (C10_zero_results_on_error w0 tFail ("x") ("ts(x)") 3).2 (by rfl)⟩


/-- C5: the body-release discipline fails on the code.  On a non-2xx status
`Do` yields a response together with an error, and both callers return on
the error check before the deferred close is registered: the trace of the
call contains no close event, so the delivered body is never released.  The
decode paths do close the body exactly once.  This theorem evaluates the
embedding at a concrete always-500 transport to exhibit the leak, and at a
2xx transport to show the single close on the decode path. -/
theorem C5_body_leaked_on_non2xx :
    (∃ r, w0.Do t500 ("GET") metricsListEndpoint
        (Values.set (Values.set [] ("m") ("cpu.")) ("l") ("150"))
      = ((some resp500,
          some (ClientError.StatusErr resp500.status resp500.statusCode)),
         [Event.sent r])) ∧
    (w0.ListMetrics t500 ("cpu.")).1.2.isSome = true ∧
    (∀ e ∈ (w0.ListMetrics t500 ("cpu.")).2, e ≠ Event.bodyClosed) ∧
    (∀ e ∈ (w0.Query t500 0 ("ts(cpu)")).2, e ≠ Event.bodyClosed) ∧
    (∃ r, (w0.ListMetrics t200 ("cpu.")).2
      = [Event.sent r, Event.decodeAttempted listBody, Event.bodyClosed]) := by
  refine ⟨⟨_, rfl⟩, rfl, ?_, ?_, ⟨_, rfl⟩⟩
  · rw [ListMetrics_status_err w0 t500 ("cpu.") resp500 (fun _ => rfl) (by decide)]
    simp
  · rw [Query_status_err w0 t500 0 ("ts(cpu)") resp500 (fun _ => rfl) (by decide)
      (by decide)]
    simp

/-! ### The issued requests of the two operations -/

theorem sentRequests_append (a b : List Event) :
    sentRequests (a ++ b) = sentRequests a ++ sentRequests b :=
  List.filterMap_append a b _

theorem sentRequests_ListMetrics (w : DefaultWavefrontClient) (t : Transport)
    ( pre : String) :
    sentRequests (w.ListMetrics t pre).2
      = [w.request ("GET") metricsListEndpoint
          (Values.set (Values.set [] ("m") pre) ("l") ("150"))] := by
  unfold DefaultWavefrontClient.ListMetrics
  simp only []
  rcases hdo : w.Do t ("GET") metricsListEndpoint
      (Values.set (Values.set [] ("m") pre) ("l") ("150")) with ⟨⟨ro, eo⟩, evs⟩
  have hevs : evs = [Event.sent (w.request ("GET") metricsListEndpoint
      (Values.set (Values.set [] ("m") pre) ("l") ("150")))] := by
    have h := Do_trace w t ("GET") metricsListEndpoint
      (Values.set (Values.set [] ("m") pre) ("l") ("150")) validMethod_GET
    rw [hdo] at h
    exact h
  subst hevs
  cases eo with
  | some e => cases ro <;> rfl
  | none =>
    cases ro with
    | none => rfl
    | some resp =>
      simp only []
      rcases hdec : decodeListResult resp.body with msg | res <;> rfl

theorem sentRequests_Query (w : DefaultWavefrontClient) (t : Transport)
    (ts : Int) (qs : String) (hq : qs ≠ "") :
    sentRequests (w.Query t ts qs).2
      = [w.request ("GET") chartEndpoint
          (Values.set (Values.set (Values.set (Values.set [] queryKey qs)
            startTime (formatInt ts)) granularity ("m")) outsideSeries ("false"))] := by
  unfold DefaultWavefrontClient.Query
  have hqb : (qs == "") = false := beq_eq_false_iff_ne.mpr hq
  simp only [hqb, Bool.false_eq_true, if_false]
  rcases hdo : w.Do t ("GET") chartEndpoint
      (Values.set (Values.set (Values.set (Values.set [] queryKey qs)
        startTime (formatInt ts)) granularity ("m")) outsideSeries ("false"))
    with ⟨⟨ro, eo⟩, evs⟩
  have hevs : evs = [Event.sent (w.request ("GET") chartEndpoint
      (Values.set (Values.set (Values.set (Values.set [] queryKey qs)
        startTime (formatInt ts)) granularity ("m")) outsideSeries ("false")))] := by
    have h := Do_trace w t ("GET") chartEndpoint
      (Values.set (Values.set (Values.set (Values.set [] queryKey qs)
        startTime (formatInt ts)) granularity ("m")) outsideSeries ("false"))
      validMethod_GET
    rw [hdo] at h
    exact h
  subst hevs
  cases eo with
  | some e => cases ro <;> rfl
  | none =>
    cases ro with
    | none => rfl
    | some resp =>
      simp only []
      rcases hdec : decodeQueryResult resp.body with msg | res <;> rfl


/-- C6: for every prefix, including the empty string, `ListMetrics` issues
exactly one GET request, to the metrics-list endpoint joined onto the base
path, and decoding its query string per form encoding gives parameter `m`
equal to the prefix and parameter `l` equal to "150". -/
theorem C6_list_request_shape (w : DefaultWavefrontClient) (t : Transport)
    ( pre : String) (hb : isByteStr pre = true) :
    ∃ r, sentRequests (w.ListMetrics t pre).2 = [r] ∧
      r.verb = ("GET") ∧
      r.url.path = pathJoin [w.baseURL.path, metricsListEndpoint] ∧
      (parseQuery r.url.rawQuery).lookup ("m") = some pre ∧
      (parseQuery r.url.rawQuery).lookup ("l") = some ("150") := by
  have hbytes : ∀ kv ∈ Values.set (Values.set [] ("m") pre) ("l") ("150"),
      isByteStr kv.1 = true ∧ isByteStr kv.2 = true := by
    intro kv hkv
    rw [show Values.set (Values.set [] ("m") pre) ("l") ("150")
        = [(("m"), pre), (("l"), ("150"))] from rfl] at hkv
    rcases List.mem_cons.mp hkv with rfl | hkv
    · exact ⟨(by decide : isByteStr ("m") = true), hb⟩
    · rcases List.mem_cons.mp hkv with rfl | hkv
      · exact ⟨(by decide : isByteStr ("l") = true),
          (by decide : isByteStr ("150") = true)⟩
      · cases hkv
  refine ⟨w.request ("GET") metricsListEndpoint
    (Values.set (Values.set [] ("m") pre) ("l") ("150")),
    sentRequests_ListMetrics w t pre, rfl, rfl, ?_, ?_⟩
  · show (parseQuery (Values.Encode
      (Values.set (Values.set [] ("m") pre) ("l") ("150")))).lookup ("m") = some pre
    rw [parseQuery_Encode _ hbytes]
    rfl
  · show (parseQuery (Values.Encode
      (Values.set (Values.set [] ("m") pre) ("l") ("150")))).lookup ("l") = some ("150")
    rw [parseQuery_Encode _ hbytes]
    rfl

/-- Witness for C6 at the empty prefix. -/
theorem C6_list_request_shape_witness :
    isByteStr ("") = true ∧
    (∃ r, sentRequests (w0.ListMetrics tFail ("")).2 = [r] ∧
      r.verb = ("GET") ∧
      r.url.path = pathJoin [w0.baseURL.path, metricsListEndpoint] ∧
      (parseQuery r.url.rawQuery).lookup ("m") = some ("") ∧
      (parseQuery r.url.rawQuery).lookup ("l") = some ("150")) :=
  ⟨by decide, C6_list_request_shape w0 tFail ("") (by decide)⟩


/-- C7: for every timestamp and non-empty query expression, `Query` issues
exactly one GET request, to the chart endpoint joined onto the base path,
and decoding its query string per form encoding gives `q` equal to the
expression, `s` equal to the decimal rendering of the timestamp, `g` equal
to "m" and `i` equal to "false". -/
theorem C7_query_request_shape (w : DefaultWavefrontClient) (t : Transport)
    (ts : Int) (qs : String) (hq : qs ≠ "") (hb : isByteStr qs = true) :
    ∃ r, sentRequests (w.Query t ts qs).2 = [r] ∧
      r.verb = ("GET") ∧
      r.url.path = pathJoin [w.baseURL.path, chartEndpoint] ∧
      (parseQuery r.url.rawQuery).lookup ("q") = some qs ∧
      (parseQuery r.url.rawQuery).lookup ("s") = some (formatInt ts) ∧
      (parseQuery r.url.rawQuery).lookup ("g") = some ("m") ∧
      (parseQuery r.url.rawQuery).lookup ("i") = some ("false") := by
  have hbytes : ∀ kv ∈ Values.set (Values.set (Values.set (Values.set [] queryKey qs)
      startTime (formatInt ts)) granularity ("m")) outsideSeries ("false"),
      isByteStr kv.1 = true ∧ isByteStr kv.2 = true := by
    intro kv hkv
    rw [show Values.set (Values.set (Values.set (Values.set [] queryKey qs)
        startTime (formatInt ts)) granularity ("m")) outsideSeries ("false")
        = [(("q"), qs), (("s"), formatInt ts), (("g"), ("m")), (("i"), ("false"))]
      from rfl] at hkv
    rcases List.mem_cons.mp hkv with rfl | hkv
    · exact ⟨(by decide : isByteStr ("q") = true), hb⟩
    · rcases List.mem_cons.mp hkv with rfl | hkv
      · exact ⟨(by decide : isByteStr ("s") = true), isByteStr_formatInt ts⟩
      · rcases List.mem_cons.mp hkv with rfl | hkv
        · exact ⟨(by decide : isByteStr ("g") = true),
            (by decide : isByteStr ("m") = true)⟩
        · rcases List.mem_cons.mp hkv with rfl | hkv
          · exact ⟨(by decide : isByteStr ("i") = true),
              (by decide : isByteStr ("false") = true)⟩
          · cases hkv
  refine ⟨w.request ("GET") chartEndpoint
    (Values.set (Values.set (Values.set (Values.set [] queryKey qs)
      startTime (formatInt ts)) granularity ("m")) outsideSeries ("false")),
    sentRequests_Query w t ts qs hq, rfl, rfl, ?_, ?_, ?_, ?_⟩
  all_goals
    show (parseQuery (Values.Encode
      (Values.set (Values.set (Values.set (Values.set [] queryKey qs)
        startTime (formatInt ts)) granularity ("m")) outsideSeries ("false")))).lookup _
      = _
  all_goals rw [parseQuery_Encode _ hbytes]
  all_goals rfl

/-- Witness for C7 at a concrete timestamp and query expression. -/
theorem C7_query_request_shape_witness :
    ("ts(cpu.load)" : String) ≠ ("") ∧ isByteStr ("ts(cpu.load)") = true ∧
    (∃ r, sentRequests (w0.Query tFail 1500000000 ("ts(cpu.load)")).2 = [r] ∧
      r.verb = ("GET") ∧
      r.url.path = pathJoin [w0.baseURL.path, chartEndpoint] ∧
      (parseQuery r.url.rawQuery).lookup ("q") = some ("ts(cpu.load)") ∧
      (parseQuery r.url.rawQuery).lookup ("s") = some (formatInt 1500000000) ∧
      (parseQuery r.url.rawQuery).lookup ("g") = some ("m") ∧
      (parseQuery r.url.rawQuery).lookup ("i") = some ("false")) :=
  ⟨by decide, by decide,
   C7_query_request_shape w0 tFail 1500000000 ("ts(cpu.load)") (by decide) (by decide)⟩


/-! ### 2xx behaviour and decoding -/

theorem Do_ok (w : DefaultWavefrontClient) (t : Transport) (verb ep : String)
    (q : Values) (resp : HttpResponse)
    (h1 : ∀ r, t r = TransportResult.ok resp)
    (h2 : Int.tdiv resp.statusCode 100 = 2) (hv : validMethod verb = true) :
    w.Do t verb ep q = ((some resp, none), [Event.sent (w.request verb ep q)]) := by
  unfold DefaultWavefrontClient.Do
  simp only [hv, if_true]
  rw [h1]
  have hc : (Int.tdiv resp.statusCode 100 != 2) = false := by simp [h2]
  simp only [hc, Bool.false_eq_true, if_false]

theorem ListMetrics_decode_error (w : DefaultWavefrontClient) (t : Transport)
    ( pre : String) (resp : HttpResponse) (e : String)
    (h1 : ∀ r, t r = TransportResult.ok resp)
    (h2 : Int.tdiv resp.statusCode 100 = 2)
    (hdec : decodeListResult resp.body = Except.error e) :
    (w.ListMetrics t pre).1 = (none, some (ClientError.BadResponse e)) := by
  unfold DefaultWavefrontClient.ListMetrics
  simp only []
  rw [Do_ok w t ("GET") metricsListEndpoint _ resp h1 h2 validMethod_GET]
  simp only []
  rw [hdec]

theorem ListMetrics_decode_ok (w : DefaultWavefrontClient) (t : Transport)
    ( pre : String) (resp : HttpResponse) (lr : ListResult)
    (h1 : ∀ r, t r = TransportResult.ok resp)
    (h2 : Int.tdiv resp.statusCode 100 = 2)
    (hdec : decodeListResult resp.body = Except.ok lr) :
    (w.ListMetrics t pre).1 = (some lr.metrics, none) := by
  unfold DefaultWavefrontClient.ListMetrics
  simp only []
  rw [Do_ok w t ("GET") metricsListEndpoint _ resp h1 h2 validMethod_GET]
  simp only []
  rw [hdec]

theorem Query_decode_error (w : DefaultWavefrontClient) (t : Transport)
    (ts : Int) (qs : String) (resp : HttpResponse) (e : String)
    (h1 : ∀ r, t r = TransportResult.ok resp)
    (h2 : Int.tdiv resp.statusCode 100 = 2) (hq : qs ≠ "")
    (hdec : decodeQueryResult resp.body = Except.error e) :
    (w.Query t ts qs).1 = (QueryResult.zero, some (ClientError.BadResponse e)) := by
  unfold DefaultWavefrontClient.Query
  have hqb : (qs == "") = false := beq_eq_false_iff_ne.mpr hq
  simp only [hqb, Bool.false_eq_true, if_false]
  rw [Do_ok w t ("GET") chartEndpoint _ resp h1 h2 validMethod_GET]
  simp only []
  rw [hdec]

/-- C8: on a 2xx response whose body fails to decode, `ListMetrics` and
`Query` each return a `BadResponse` error carrying exactly the decode error
text; on a 2xx response whose body decodes, `ListMetrics` returns the
decoded metric names in order with no deduplication, and in particular the
body of the worked example decodes to the two names in service order. -/
theorem C8_decode_results (w : DefaultWavefrontClient) (t : Transport)
    (resp : HttpResponse) ( pre qs : String) (ts : Int) (e : String)
    (lr : ListResult)
    (h1 : ∀ r, t r = TransportResult.ok resp)
    (h2 : Int.tdiv resp.statusCode 100 = 2) (hq : qs ≠ "") :
    (decodeListResult resp.body = Except.error e →
      (w.ListMetrics t pre).1 = (none, some (ClientError.BadResponse e))) ∧
    (decodeQueryResult resp.body = Except.error e →
      (w.Query t ts qs).1 = (QueryResult.zero, some (ClientError.BadResponse e))) ∧
    (decodeListResult resp.body = Except.ok lr →
      (w.ListMetrics t pre).1 = (some lr.metrics, none)) ∧
    decodeListResult listBody
      = Except.ok { metrics := [("cpu.load"), ("cpu.idle")] } ∧
    (resp.body = listBody →
      (w.ListMetrics t pre).1 = (some [("cpu.load"), ("cpu.idle")], none)) := by
  refine ⟨?_, ?_, ?_, rfl, ?_⟩
  · intro hdec
    exact ListMetrics_decode_error w t pre resp e h1 h2 hdec
  · intro hdec
    exact Query_decode_error w t ts qs resp e h1 h2 hq hdec
  · intro hdec
    exact ListMetrics_decode_ok w t pre resp lr h1 h2 hdec
  · intro hbody
    have hdec : decodeListResult resp.body
        = Except.ok { metrics := [("cpu.load"), ("cpu.idle")] } := by
      rw [hbody]
      rfl
    exact ListMetrics_decode_ok w t pre resp _ h1 h2 hdec

/-- Witness for C8 at a 2xx transport delivering the worked-example body. -/
theorem C8_decode_results_witness :
    (∀ r, t200 r = TransportResult.ok resp200) ∧
    Int.tdiv resp200.statusCode 100 = 2 ∧
    (w0.ListMetrics t200 ("cpu.")).1
      = (some [("cpu.load"), ("cpu.idle")], none) :=
  ⟨fun _ => rfl, by decide,
   (C8_decode_results w0 t200 resp200 ("cpu.") ("ts(x)") 0 ("x") {}
     (fun _ => rfl) (by decide) (by decide)).2.2.2.2 rfl⟩

/-- C9: form encoding round-trips: for a parameter map with distinct keys
over byte strings — values with reserved characters such as space, `&` and
`=` included — encoding the map into a query string and decoding it per
standard form encoding yields every original value unchanged. -/
theorem C9_encode_decode_roundtrip (vs : Values) (k v : String)
    (hd : vs.Pairwise (fun a b => a.1 ≠ b.1))
    (hb : ∀ kv ∈ vs, isByteStr kv.1 = true ∧ isByteStr kv.2 = true)
    (hm : (k, v) ∈ vs) :
    (parseQuery (Values.Encode vs)).lookup k = some v := by
  rw [parseQuery_Encode vs hb]
  apply lookup_eq_some_of_mem
  · exact ((sortPairs_perm vs).pairwise_iff
      (fun hxy he => hxy he.symm)).mpr hd
  · exact (sortPairs_perm vs).mem_iff.mpr hm

/-- Witness for C9 at a value containing a space, `&` and `=`. -/
theorem C9_encode_decode_roundtrip_witness :
    ([(("q"), ("a b&c=d"))] : Values).Pairwise (fun a b => a.1 ≠ b.1) ∧
    (("q"), ("a b&c=d")) ∈ ([(("q"), ("a b&c=d"))] : Values) ∧
    (parseQuery (Values.Encode [(("q"), ("a b&c=d"))])).lookup ("q")
      = some ("a b&c=d") :=
  ⟨by simp, by simp,
   C9_encode_decode_roundtrip [(("q"), ("a b&c=d"))] ("q") ("a b&c=d")
     (by simp)
     (by
       intro kv hkv
       rcases List.mem_cons.mp hkv with rfl | hkv
       · exact ⟨(by decide : isByteStr ("q") = true),
           (by decide : isByteStr ("a b&c=d") = true)⟩
       · cases hkv)
     (by simp)⟩

end Wavefront
